import Mathlib

/-!
Verification of the sales-data-analysis cleaning pipeline
(`src/data_cleaning.py`) against its natural-language specification.

The pandas DataFrame is embedded shallowly: a table is a list of named,
dtype-tagged columns, each a list of cells; a cell is either a value or
the explicit missing marker (NaN / NaT).  Timestamps are integers counting
nanoseconds since the Unix epoch, matching the datetime64[ns]
representation.  Numbers are rationals.  Each function of the cleaning
module is translated to a Lean function over this model, and the claims
are settled as theorems about those functions.
-/

namespace Sales

/-- Scalar values a pandas cell can hold in this pipeline: text, numbers
(float64, modelled as rationals), datetime64[ns] timestamps (nanoseconds
since the epoch), and booleans. -/
inductive Value where
  | str (s : String)
  | num (q : Rat)
  | dt (t : Int)
  | bool (b : Bool)
deriving DecidableEq

/-- A cell is a value or the missing marker (NaN / NaT / None). -/
inductive Cell where
  | val (v : Value)
  | missing
deriving DecidableEq

/-- Column dtype tag, mirroring the pandas dtype of a Series:
object/text, float64/int64, datetime64, or bool. -/
inductive Dtype where
  | text
  | number
  | datetime
  | boolean
deriving DecidableEq

/-- A named, dtype-tagged column of cells. -/
structure Column where
  name : String
  dtype : Dtype
  cells : List Cell
deriving DecidableEq

/-- A DataFrame: an ordered list of columns. -/
abbrev Table := List Column

/-- Default column used as the out-of-range fallback of list indexing. -/
def defCol : Column := ⟨"", Dtype.text, []⟩

/-- First column with the given name (pandas column lookup df[name]). -/
def getCol (df : Table) (n : String) : Option Column :=
  df.find? (fun c => c.name == n)

/-- Membership test: name in df.columns. -/
def hasCol (df : Table) (n : String) : Bool :=
  (getCol df n).isSome

/-- Cells of the named column ([] when the column is absent). -/
def colCells (df : Table) (n : String) : List Cell :=
  ((getCol df n).map Column.cells).getD []

/-- Pandas column assignment df[name] = cells: replaces the column in
place when the name exists, otherwise appends a new column at the end. -/
def setCol (df : Table) (n : String) (d : Dtype) (cs : List Cell) : Table :=
  if hasCol df n then
    df.map (fun c => if c.name = n then ⟨n, d, cs⟩ else c)
  else
    df ++ [⟨n, d, cs⟩]

/-- Row count of a table (length of its first column; 0 when empty). -/
def nrows (df : Table) : Nat :=
  match df with
  | [] => 0
  | c :: _ => c.cells.length

/-- Row i of a table, as the list of the cells of each column at i. -/
def rowAt (df : Table) (i : Nat) : List Cell :=
  df.map (fun c => c.cells.getD i Cell.missing)

/-- Boolean missing test on a cell. -/
def isMissing : Cell → Bool
  | Cell.missing => true
  | Cell.val _ => false

/-- Nanoseconds in a day, the unit conversion of datetime64[ns]. -/
def nsPerDay : Int := 86400000000000

/-- Gregorian leap-year test. -/
def isLeapYear (y : Int) : Bool :=
  (y % 4 == 0 && y % 100 != 0) || y % 400 == 0

/-- Number of days of month m of year y. -/
def daysInMonth (y m : Int) : Int :=
  if m = 2 then (if isLeapYear y then 29 else 28)
  else if m = 4 ∨ m = 6 ∨ m = 9 ∨ m = 11 then 30
  else 31

/-- Days since 1970-01-01 of the civil date y-m-d (proleptic Gregorian). -/
def daysFromCivil (y m d : Int) : Int :=
  let y1 := y - (if m ≤ 2 then 1 else 0)
  let era := (if 0 ≤ y1 then y1 else y1 - 399) / 400
  let yoe := y1 - era * 400
  let mp := m + (if 2 < m then -3 else 9)
  let doy := (153 * mp + 2) / 5 + d - 1
  let doe := yoe * 365 + yoe / 4 - yoe / 100 + doy
  era * 146097 + doe - 719468

/-- Civil date (year, month, day) of a count of days since 1970-01-01. -/
def civilFromDays (z0 : Int) : Int × Int × Int :=
  let z := z0 + 719468
  let era := (if 0 ≤ z then z else z - 146096) / 146097
  let doe := z - era * 146097
  let yoe := (doe - doe / 1460 + doe / 36524 - doe / 146096) / 365
  let y := yoe + era * 400
  let doy := doe - (365 * yoe + yoe / 4 - yoe / 100)
  let mp := (5 * doy + 2) / 153
  let d := doy - (153 * mp + 2) / 5 + 1
  let m := mp + (if mp < 10 then 3 else -9)
  (y + (if m ≤ 2 then 1 else 0), m, d)

/-- Day count (since the epoch) a timestamp falls on; floors for
pre-epoch instants, as datetime64 calendar accessors do. -/
def daysOfTs (t : Int) : Int := t.fdiv nsPerDay

/-- Calendar year of a timestamp (the dt.year accessor). -/
def yearOf (t : Int) : Int := (civilFromDays (daysOfTs t)).1

/-- Calendar month, 1 to 12 (the dt.month accessor). -/
def monthOf (t : Int) : Int := (civilFromDays (daysOfTs t)).2.1

/-- Day of month, 1 to 31 (the dt.day accessor). -/
def dayOf (t : Int) : Int := (civilFromDays (daysOfTs t)).2.2

/-- Day of week with Monday = 0 (the dt.dayofweek accessor); the epoch
day 1970-01-01 was a Thursday, number 3. -/
def dayOfWeekOf (t : Int) : Int := (daysOfTs t + 3).emod 7

/-- Quarter 1 to 4 of a timestamp (the dt.quarter accessor). -/
def quarterOf (t : Int) : Int := (monthOf t - 1) / 3 + 1

/-- Split a character list on a separator character; always returns at
least one (possibly empty) group. -/
def splitChars (sep : Char) : List Char → List (List Char)
  | [] => [[]]
  | c :: cs =>
    let r := splitChars sep cs
    if c = sep then [] :: r
    else
      match r with
      | [] => [[c]]
      | g :: gs => (c :: g) :: gs

/-- Numeric value of a nonempty list of decimal digits, none
otherwise. -/
def natOfDigits (l : List Char) : Option Nat :=
  if !l.isEmpty && l.all Char.isDigit then
    some (l.foldl (fun n c => n * 10 + (c.toNat - 48)) 0)
  else none

/-- Parse the date part YYYY-MM-DD of an ISO timestamp into a day count,
rejecting out-of-range months and days as pandas does. -/
def parseDatePiece (l : List Char) : Option Int :=
  match splitChars (Char.ofNat 45) l with
  | [ys, ms, ds] =>
    match natOfDigits ys, natOfDigits ms, natOfDigits ds with
    | some y, some m, some d =>
      if 1 ≤ m && m ≤ 12 && 1 ≤ d && (d : Int) ≤ daysInMonth (y : Int) (m : Int) then
        some (daysFromCivil (y : Int) (m : Int) (d : Int))
      else none
    | _, _, _ => none
  | _ => none

/-- Parse the time part HH:MM:SS into a number of seconds. -/
def parseTimePiece (l : List Char) : Option Int :=
  match splitChars (Char.ofNat 58) l with
  | [hs, ms, ss] =>
    match natOfDigits hs, natOfDigits ms, natOfDigits ss with
    | some h, some m, some sec =>
      if h < 24 && m < 60 && sec < 60 then
        some ((h : Int) * 3600 + (m : Int) * 60 + (sec : Int))
      else none
    | _, _, _ => none
  | _ => none

/-- Parse an ISO timestamp string (YYYY-MM-DD, optionally followed by a
space and HH:MM:SS) into nanoseconds since the epoch; none when the
string is not a timestamp, which pd.to_datetime with errors=coerce turns
into the missing marker NaT. -/
def parseTimestamp (s : String) : Option Int :=
  match splitChars (Char.ofNat 32) s.data with
  | [dp] => (parseDatePiece dp).map (fun days => days * 86400 * 1000000000)
  | [dp, tp] =>
    match parseDatePiece dp, parseTimePiece tp with
    | some days, some secs => some ((days * 86400 + secs) * 1000000000)
    | _, _ => none
  | _ => none

/-- Cell-level pd.to_datetime with errors=coerce: timestamps pass
through, strings are parsed (unparsable ones become NaT), numbers are
read as nanosecond counts, anything else and the missing marker coerce
to NaT. -/
def toDatetimeCell : Cell → Cell
  | Cell.val (Value.dt t) => Cell.val (Value.dt t)
  | Cell.val (Value.str s) =>
    match parseTimestamp s with
    | some t => Cell.val (Value.dt t)
    | none => Cell.missing
  | Cell.val (Value.num q) => Cell.val (Value.dt q.floor)
  | Cell.val (Value.bool _) => Cell.missing
  | Cell.missing => Cell.missing

/-- Column-level pd.to_datetime with errors=coerce: every cell is
coerced and the dtype becomes datetime64. -/
def convertCol (c : Column) : Column :=
  ⟨c.name, Dtype.datetime, c.cells.map toDatetimeCell⟩

/-- The convert_dates function: for each listed name present in the
table, the column is reinterpreted as datetime via pd.to_datetime with
errors=coerce; absent names are skipped. -/
def convert_dates (df : Table) (date_columns : List String) : Table :=
  date_columns.foldl
    (fun acc col => acc.map (fun c => if c.name = col then convertCol c else c)) df

/-- Suffixes of the six derived calendar columns of
extract_date_features, in assignment order. -/
def featureSuffixes : List String :=
  ["_year", "_month", "_day", "_dayofweek", "_quarter", "_is_weekend"]

/-- The dt.year accessor on a cell (missing for NaT). -/
def cellYear : Cell → Cell
  | Cell.val (Value.dt t) => Cell.val (Value.num (yearOf t))
  | _ => Cell.missing

/-- The dt.month accessor on a cell. -/
def cellMonth : Cell → Cell
  | Cell.val (Value.dt t) => Cell.val (Value.num (monthOf t))
  | _ => Cell.missing

/-- The dt.day accessor on a cell. -/
def cellDay : Cell → Cell
  | Cell.val (Value.dt t) => Cell.val (Value.num (dayOf t))
  | _ => Cell.missing

/-- The dt.dayofweek accessor on a cell. -/
def cellDayOfWeek : Cell → Cell
  | Cell.val (Value.dt t) => Cell.val (Value.num (dayOfWeekOf t))
  | _ => Cell.missing

/-- The dt.quarter accessor on a cell. -/
def cellQuarter : Cell → Cell
  | Cell.val (Value.dt t) => Cell.val (Value.num (quarterOf t))
  | _ => Cell.missing

/-- One cell of dt.dayofweek.isin([5, 6]).astype(int): 1 when the day of
week is Saturday or Sunday, else 0; a missing timestamp is not in the
set, so it yields 0, not the missing marker. -/
def cellIsWeekend : Cell → Cell
  | Cell.val (Value.dt t) =>
    Cell.val (Value.num (if dayOfWeekOf t = 5 ∨ dayOfWeekOf t = 6 then 1 else 0))
  | _ => Cell.val (Value.num 0)

/-- The extract_date_features function: when the named column exists and
has datetime dtype, six derived columns (year, month, day, dayofweek,
quarter, is_weekend) are assigned; otherwise an error is reported and
the table is returned unchanged. -/
def extract_date_features (df : Table) (date_column : String) : Table :=
  match getCol df date_column with
  | some c =>
    if c.dtype = Dtype.datetime then
      let df1 := setCol df (date_column ++ "_year") Dtype.number (c.cells.map cellYear)
      let df2 := setCol df1 (date_column ++ "_month") Dtype.number (c.cells.map cellMonth)
      let df3 := setCol df2 (date_column ++ "_day") Dtype.number (c.cells.map cellDay)
      let df4 := setCol df3 (date_column ++ "_dayofweek") Dtype.number (c.cells.map cellDayOfWeek)
      let df5 := setCol df4 (date_column ++ "_quarter") Dtype.number (c.cells.map cellQuarter)
      setCol df5 (date_column ++ "_is_weekend") Dtype.number (c.cells.map cellIsWeekend)
    else df
  | none => df

/-- Numeric content of a cell, skipping missing and non-numeric values
as the skipna statistics of pandas do. -/
def numVal : Cell → Option Rat
  | Cell.val (Value.num q) => some q
  | _ => none

/-- Insert a rational into a sorted list, keeping it sorted. -/
def insertSorted (x : Rat) : List Rat → List Rat
  | [] => [x]
  | y :: ys => if x ≤ y then x :: y :: ys else y :: insertSorted x ys

/-- Sort a list of rationals ascending. -/
def sortRats (l : List Rat) : List Rat := l.foldr insertSorted []

/-- Series.mean with skipna: the mean of the present numeric values,
missing when there is none (the mean of an all-missing column is NaN). -/
def colMeanCell (cells : List Cell) : Cell :=
  let v := cells.filterMap numVal
  if v.length = 0 then Cell.missing
  else Cell.val (Value.num (v.sum / (v.length : Rat)))

/-- Series.median with skipna: middle of the sorted present values, the
average of the two middles for an even count, missing when there is
none. -/
def colMedianCell (cells : List Cell) : Cell :=
  let v := sortRats (cells.filterMap numVal)
  let n := v.length
  if n = 0 then Cell.missing
  else if n % 2 = 1 then Cell.val (Value.num (v.getD (n / 2) 0))
  else Cell.val (Value.num ((v.getD (n / 2 - 1) 0 + v.getD (n / 2) 0) / 2))

/-- Series.fillna with a cell as fill value: missing cells take the fill
value (a missing fill value leaves them missing), present cells pass
through. -/
def fillCells (cells : List Cell) (v : Cell) : List Cell :=
  cells.map (fun x => match x with | Cell.missing => v | _ => x)

/-- Row indices of a table whose row contains a missing cell in some
column. -/
def rowHasMissing (df : Table) (i : Nat) : Bool :=
  df.any (fun c => isMissing (c.cells.getD i Cell.missing))

/-- Indices of the rows DataFrame.dropna keeps: the rows with no missing
cell, in order. -/
def keptIdx (df : Table) : List Nat :=
  (List.range (nrows df)).filter (fun i => !rowHasMissing df i)

/-- DataFrame.dropna: keeps exactly the rows with no missing cell in any
column, preserving their order. -/
def dropna (df : Table) : Table :=
  df.map (fun c => ⟨c.name, c.dtype, (keptIdx df).map (fun i => c.cells.getD i Cell.missing)⟩)

/-- The handle_missing_values function: drop removes rows with a missing
cell; fill_mean and fill_median fill each numeric-dtype column with its
own statistic; fill_zero fills every missing cell of every column with
the number zero; an unrecognized strategy warns and falls back to
drop. -/
def handle_missing_values (df : Table) (strategy : String := "drop") : Table :=
  if strategy = "drop" then dropna df
  else if strategy = "fill_mean" then
    df.map (fun c =>
      if c.dtype = Dtype.number then ⟨c.name, c.dtype, fillCells c.cells (colMeanCell c.cells)⟩
      else c)
  else if strategy = "fill_median" then
    df.map (fun c =>
      if c.dtype = Dtype.number then ⟨c.name, c.dtype, fillCells c.cells (colMedianCell c.cells)⟩
      else c)
  else if strategy = "fill_zero" then
    df.map (fun c => ⟨c.name, c.dtype, fillCells c.cells (Cell.val (Value.num 0))⟩)
  else dropna df

/-- Indices of the rows of the right table whose key cell equals k. -/
def matchIndices (rk : List Cell) (k : Cell) : List Nat :=
  (List.range rk.length).filter (fun j => rk.getD j Cell.missing == k)

/-- Row-pair list of an inner merge on a key: one pair per matching
left-row and right-row combination, in left order. -/
def innerPairs (lk rk : List Cell) : List (Nat × Option Nat) :=
  (List.range lk.length).flatMap
    (fun i => (matchIndices rk (lk.getD i Cell.missing)).map (fun j => (i, some j)))

/-- Row-pair list of a left merge on a key: every left row appears, once
per matching right row, or once with no right row when unmatched. -/
def leftPairs (lk rk : List Cell) : List (Nat × Option Nat) :=
  (List.range lk.length).flatMap
    (fun i =>
      let ms := matchIndices rk (lk.getD i Cell.missing)
      if ms.isEmpty then [(i, none)] else ms.map (fun j => (i, some j)))

/-- Disambiguated name a merge gives a column: shared non-key names get
the _x / _y suffix. -/
def mergeName (other : Table) (key : String) (n : String) (suffix : String) : String :=
  if n ≠ key ∧ hasCol other n then n ++ suffix else n

/-- Row-pair list of a merge of two key columns, how=inner when the
flag is true, how=left otherwise. -/
def mergePairs (lc rc : Column) (inner : Bool) : List (Nat × Option Nat) :=
  if inner then innerPairs lc.cells rc.cells else leftPairs lc.cells rc.cells

/-- pd.merge of two tables on a single key column, how=inner or
how=left.  The key must exist on both sides, else pandas raises KeyError
(modelled as none).  Output columns are the left columns followed by the
non-key right columns, each gathered along the row-pair list; an
unmatched right side yields missing cells. -/
def pdMerge (left right : Table) (key : String) (inner : Bool) : Option Table :=
  match getCol left key, getCol right key with
  | some lc, some rc =>
    some (left.map (fun c =>
      ⟨mergeName right key c.name "_x", c.dtype,
        (mergePairs lc rc inner).map (fun pr => c.cells.getD pr.1 Cell.missing)⟩)
    ++ (right.filter (fun c => !(c.name == key))).map (fun c =>
      ⟨mergeName left key c.name "_y", c.dtype,
        (mergePairs lc rc inner).map (fun pr =>
          match pr.2 with
          | some j => c.cells.getD j Cell.missing
          | none => Cell.missing)⟩))
  | _, _ => none

/-- The merge_order_data function: inner merge of orders and order_items
on order_id, then an optional left merge with products on product_id and
an optional left merge with customers on customer_id; a merge failure
(KeyError) propagates. -/
def merge_order_data (orders order_items : Table)
    (products : Option Table := none) (customers : Option Table := none) : Option Table :=
  (pdMerge orders order_items "order_id" true).bind (fun m1 =>
    (match products with
     | some p => pdMerge m1 p "product_id" false
     | none => some m1).bind (fun m2 =>
      match customers with
      | some c => pdMerge m2 c "customer_id" false
      | none => some m2))

/-- Timedelta in fractional days between two datetime cells, the model
of (a - b).dt.total_seconds() / (24 * 3600); missing when either side is
missing. -/
def subDays (a b : Cell) : Cell :=
  match a, b with
  | Cell.val (Value.dt x), Cell.val (Value.dt y) =>
    Cell.val (Value.num (((x - y : Int) : Rat) / (nsPerDay : Rat)))
  | _, _ => Cell.missing

/-- Elementwise difference of two numeric cells; missing propagates. -/
def subNum (a b : Cell) : Cell :=
  match a, b with
  | Cell.val (Value.num x), Cell.val (Value.num y) => Cell.val (Value.num (x - y))
  | _, _ => Cell.missing

/-- Elementwise comparison with zero, the model of series <= 0: a
number compares normally and NaN compares as false, so the result is a
boolean cell, never missing. -/
def leZero : Cell → Cell
  | Cell.val (Value.num x) => Cell.val (Value.bool (decide (x ≤ 0)))
  | _ => Cell.val (Value.bool false)

/-- Coerce one named column to datetime unless its dtype already is
datetime, mirroring the per-column check-and-convert step of
calculate_delivery_time. -/
def coerceDatetimeCol (df : Table) (col : String) : Table :=
  df.map (fun c =>
    if c.name = col then (if c.dtype = Dtype.datetime then c else convertCol c) else c)

/-- Derived-column block of calculate_delivery_time: assigns
delivery_time_days, estimated_delivery_time_days,
delivery_time_difference and delivered_on_time, reading each operand
from the current state of the table as the source does. -/
def addDeliveryCols (df : Table) : Table :=
  let p := colCells df "order_purchase_timestamp"
  let d := colCells df "order_delivered_customer_date"
  let e := colCells df "order_estimated_delivery_date"
  let df1 := setCol df "delivery_time_days" Dtype.number (List.zipWith subDays d p)
  let df2 := setCol df1 "estimated_delivery_time_days" Dtype.number (List.zipWith subDays e p)
  let df3 := setCol df2 "delivery_time_difference" Dtype.number
    (List.zipWith subNum (colCells df2 "delivery_time_days")
      (colCells df2 "estimated_delivery_time_days"))
  setCol df3 "delivered_on_time" Dtype.boolean
    ((colCells df3 "delivery_time_difference").map leZero)

/-- The calculate_delivery_time function: walks the three required date
columns in order; a missing column prints an error and returns the table
as processed so far; a present column is coerced to datetime when its
dtype is not datetime; when all three survive, the four derived columns
are assigned. -/
def calculate_delivery_time (orders : Table) : Table :=
  if hasCol orders "order_purchase_timestamp" then
    if hasCol (coerceDatetimeCol orders "order_purchase_timestamp")
        "order_delivered_customer_date" then
      if hasCol (coerceDatetimeCol (coerceDatetimeCol orders "order_purchase_timestamp")
          "order_delivered_customer_date") "order_estimated_delivery_date" then
        addDeliveryCols
          (coerceDatetimeCol
            (coerceDatetimeCol (coerceDatetimeCol orders "order_purchase_timestamp")
              "order_delivered_customer_date")
            "order_estimated_delivery_date")
      else
        coerceDatetimeCol (coerceDatetimeCol orders "order_purchase_timestamp")
          "order_delivered_customer_date"
    else coerceDatetimeCol orders "order_purchase_timestamp"
  else orders

/-- The load_datasets function over an abstract read-only filesystem
(a map from path to the table its CSV holds, none when the file is
absent): the five reads are attempted in order inside one try block, a
FileNotFoundError from any of them is caught, and the handler returns
None; on success the five tables are returned under their logical
names. -/
def load_datasets (fs : String → Option Table) (base_path : String := "../data/raw/") :
    Option (List (String × Table)) :=
  match fs (base_path ++ "olist_orders_dataset.csv"),
        fs (base_path ++ "olist_order_items_dataset.csv"),
        fs (base_path ++ "olist_products_dataset.csv"),
        fs (base_path ++ "olist_customers_dataset.csv"),
        fs (base_path ++ "olist_sellers_dataset.csv") with
  | some o, some oi, some p, some c, some s =>
    some [("orders", o), ("order_items", oi), ("products", p), ("customers", c), ("sellers", s)]
  | _, _, _, _, _ => none

/-! Helper lemmas about list indexing with a default. -/

theorem getD_val_lt {l : List Cell} {i : Nat} {v : Value}
    (h : l.getD i Cell.missing = Cell.val v) : i < l.length := by
  by_contra hn
  rw [List.getD_eq_default] at h
  · exact Cell.noConfusion h
  · omega

theorem getD_map_lt {α β : Type} (f : α → β) {l : List α} {i : Nat}
    (h : i < l.length) (d : β) (d2 : α) : (l.map f).getD i d = f (l.getD i d2) := by
  rw [List.getD_eq_getElem _ _ (by simpa using h), List.getD_eq_getElem _ _ h,
    List.getElem_map]

theorem getD_zipWith_lt {α β γ : Type} (f : α → β → γ) {as : List α} {bs : List β} {i : Nat}
    (ha : i < as.length) (hb : i < bs.length) (d : γ) (da : α) (db : β) :
    (List.zipWith f as bs).getD i d = f (as.getD i da) (bs.getD i db) := by
  rw [List.getD_eq_getElem _ _ (by rw [List.length_zipWith]; omega),
    List.getD_eq_getElem _ _ ha, List.getD_eq_getElem _ _ hb, List.getElem_zipWith]

/-! Helper lemmas about column lookup and assignment. -/

theorem getCol_mem {df : Table} {n : String} {c : Column}
    (h : getCol df n = some c) : c ∈ df :=
  List.mem_of_find?_eq_some h

theorem getCol_none_of_not_hasCol {df : Table} {n : String} (h : hasCol df n = false) :
    getCol df n = none := by
  unfold hasCol at h
  cases hg : getCol df n with
  | none => rfl
  | some c => rw [hg] at h; simp at h

theorem getCol_map_ite {df : Table} {n m : String} {A : Column}
    (hA : A.name = n) (hnm : m ≠ n) :
    getCol (df.map (fun c => if c.name = n then A else c)) m = getCol df m := by
  induction df with
  | nil => rfl
  | cons c rest ih =>
    unfold getCol at ih ⊢
    rw [List.map_cons]
    by_cases hc : c.name = n
    · rw [if_pos hc]
      rw [List.find?_cons_of_neg, List.find?_cons_of_neg]
      · exact ih
      · simp [hc, Ne.symm hnm]
      · simp [hA, Ne.symm hnm]
    · rw [if_neg hc]
      cases hcm : (c.name == m) with
      | true =>
        rw [List.find?_cons_of_pos, List.find?_cons_of_pos] <;> simp [hcm]
      | false =>
        rw [List.find?_cons_of_neg, List.find?_cons_of_neg]
        · exact ih
        · simp [hcm]
        · simp [hcm]

theorem getCol_setCol_self (df : Table) (n : String) (d : Dtype) (cs : List Cell) :
    getCol (setCol df n d cs) n = some ⟨n, d, cs⟩ := by
  unfold setCol
  by_cases h : hasCol df n = true
  · rw [if_pos h]
    induction df with
    | nil => simp [hasCol, getCol] at h
    | cons c rest ih =>
      rw [List.map_cons]
      by_cases hc : c.name = n
      · rw [if_pos hc]
        unfold getCol
        rw [List.find?_cons_of_pos]
        simp
      · rw [if_neg hc]
        unfold getCol
        rw [List.find?_cons_of_neg]
        · apply ih
          unfold hasCol getCol at h ⊢
          rw [List.find?_cons_of_neg] at h
          · exact h
          · simp [hc]
        · simp [hc]
  · rw [if_neg h]
    have hn := getCol_none_of_not_hasCol (Bool.not_eq_true _ ▸ h)
    unfold getCol at hn ⊢
    rw [List.find?_append, hn]
    simp

theorem getCol_setCol_ne {df : Table} {n m : String} (d : Dtype) (cs : List Cell)
    (hnm : m ≠ n) : getCol (setCol df n d cs) m = getCol df m := by
  unfold setCol
  by_cases h : hasCol df n = true
  · rw [if_pos h]
    exact getCol_map_ite rfl hnm
  · rw [if_neg h]
    unfold getCol
    rw [List.find?_append]
    have h1 : List.find? (fun c => c.name == m) [(⟨n, d, cs⟩ : Column)] = none := by
      simp [hnm.symm]
    rw [h1]
    cases List.find? (fun c => c.name == m) df <;> rfl

theorem colCells_setCol_self (df : Table) (n : String) (d : Dtype) (cs : List Cell) :
    colCells (setCol df n d cs) n = cs := by
  unfold colCells
  rw [getCol_setCol_self]
  rfl

theorem colCells_setCol_ne {df : Table} {n m : String} (d : Dtype) (cs : List Cell)
    (hnm : m ≠ n) : colCells (setCol df n d cs) m = colCells df m := by
  unfold colCells
  rw [getCol_setCol_ne d cs hnm]

/-- A map that rewrites each column without changing its name commutes
with column lookup. -/
theorem getCol_map_namePres {df : Table} {f : Column → Column}
    (hf : ∀ c, (f c).name = c.name) (m : String) :
    getCol (df.map f) m = (getCol df m).map f := by
  induction df with
  | nil => rfl
  | cons c rest ih =>
    unfold getCol at *
    simp only [List.map_cons, List.find?_cons, hf c]
    cases hcm : (c.name == m) with
    | true => rfl
    | false => exact ih

theorem hasCol_map_namePres {df : Table} {f : Column → Column}
    (hf : ∀ c, (f c).name = c.name) (m : String) :
    hasCol (df.map f) m = hasCol df m := by
  unfold hasCol
  rw [getCol_map_namePres hf]
  cases getCol df m <;> rfl

theorem hasCol_coerce (df : Table) (col m : String) :
    hasCol (coerceDatetimeCol df col) m = hasCol df m := by
  unfold coerceDatetimeCol
  apply hasCol_map_namePres
  intro c
  by_cases hc : c.name = col <;> by_cases hd : c.dtype = Dtype.datetime <;>
    simp [hc, hd, convertCol]

/-! Idempotence of the cell-level and column-level date coercion. -/

theorem toDatetimeCell_idem (x : Cell) :
    toDatetimeCell (toDatetimeCell x) = toDatetimeCell x := by
  cases x with
  | missing => rfl
  | val v =>
    cases v with
    | str s =>
      simp only [toDatetimeCell]
      cases h : parseTimestamp s <;> rfl
    | num q => rfl
    | dt t => rfl
    | bool b => rfl

theorem convertCol_name (c : Column) : (convertCol c).name = c.name := rfl

theorem convertCol_idem (c : Column) : convertCol (convertCol c) = convertCol c := by
  unfold convertCol
  simp only [List.map_map]
  congr 1
  apply List.map_congr_left
  intro x _
  exact toDatetimeCell_idem x

/-- Characterization of convert_dates: each column whose name is listed
is coerced once, the others are untouched; repeated listing collapses by
idempotence of the coercion. -/
theorem convert_dates_eq_map (df : Table) (L : List String) :
    convert_dates df L = df.map (fun c => if c.name ∈ L then convertCol c else c) := by
  induction L generalizing df with
  | nil =>
    simp only [convert_dates, List.foldl_nil, List.not_mem_nil, if_false]
    exact (List.map_id' df).symm
  | cons col rest ih =>
    unfold convert_dates at ih ⊢
    rw [List.foldl_cons, ih, List.map_map]
    apply List.map_congr_left
    intro c _
    simp only [Function.comp_apply, List.mem_cons]
    by_cases hc : c.name = col
    · rw [if_pos hc, convertCol_name]
      by_cases hr : c.name ∈ rest
      · rw [if_pos hr, if_pos (Or.inr hr), convertCol_idem]
      · rw [if_neg hr, if_pos (Or.inl hc)]
    · rw [if_neg hc]
      by_cases hr : c.name ∈ rest
      · rw [if_pos hr, if_pos (Or.inr hr)]
      · rw [if_neg hr, if_neg (by push_neg; exact ⟨hc, hr⟩)]

/-- Claim C9: date normalization is idempotent: re-running
convert_dates with the same column list on an already-normalized table
is a no-op. -/
theorem convert_dates_idempotent (df : Table) (L : List String) :
    convert_dates (convert_dates df L) L = convert_dates df L := by
  simp only [convert_dates_eq_map]
  rw [List.map_map]
  apply List.map_congr_left
  intro c _
  simp only [Function.comp_apply]
  by_cases h : c.name ∈ L
  · rw [if_pos h, if_pos (convertCol_name c ▸ h), convertCol_idem]
  · rw [if_neg h, if_neg h]

/-! Claims about handle_missing_values. -/

/-- Claim C5: the fill_zero strategy leaves no missing value in any
column: every missing cell, of whatever column dtype, becomes the
number zero, and every present cell is unchanged.  The table shape and
column names survive. -/
theorem fill_zero_no_missing (df : Table) (j i : Nat)
    (hj : j < df.length) (hi : i < (df.getD j defCol).cells.length) :
    (handle_missing_values df "fill_zero").length = df.length
    ∧ ((handle_missing_values df "fill_zero").getD j defCol).name = (df.getD j defCol).name
    ∧ ((handle_missing_values df "fill_zero").getD j defCol).cells.getD i Cell.missing
        ≠ Cell.missing
    ∧ ((handle_missing_values df "fill_zero").getD j defCol).cells.getD i Cell.missing
        = (if (df.getD j defCol).cells.getD i Cell.missing = Cell.missing
           then Cell.val (Value.num 0)
           else (df.getD j defCol).cells.getD i Cell.missing) := by
  have hz : handle_missing_values df "fill_zero"
      = df.map (fun c => ⟨c.name, c.dtype, fillCells c.cells (Cell.val (Value.num 0))⟩) := by
    unfold handle_missing_values
    rw [if_neg (by decide), if_neg (by decide), if_neg (by decide), if_pos rfl]
  rw [hz]
  refine ⟨List.length_map _ _, ?_, ?_, ?_⟩
  · rw [getD_map_lt _ hj defCol defCol]
  · rw [getD_map_lt _ hj defCol defCol]
    show (fillCells (df.getD j defCol).cells (Cell.val (Value.num 0))).getD i Cell.missing
        ≠ Cell.missing
    unfold fillCells
    rw [getD_map_lt _ hi Cell.missing Cell.missing]
    cases (df.getD j defCol).cells.getD i Cell.missing <;> simp
  · rw [getD_map_lt _ hj defCol defCol]
    show (fillCells (df.getD j defCol).cells (Cell.val (Value.num 0))).getD i Cell.missing = _
    unfold fillCells
    rw [getD_map_lt _ hi Cell.missing Cell.missing]
    cases h : (df.getD j defCol).cells.getD i Cell.missing <;> simp

/-- Witness for claim C5 at a concrete two-column table holding a
missing text cell and a missing numeric cell. -/
theorem fill_zero_no_missing_witness :
    ((handle_missing_values
        [⟨"a", Dtype.text, [Cell.missing]⟩, ⟨"b", Dtype.number, [Cell.val (Value.num 7), Cell.missing]⟩]
        "fill_zero").getD 0 defCol).cells.getD 0 Cell.missing ≠ Cell.missing
    ∧ ((handle_missing_values
        [⟨"a", Dtype.text, [Cell.missing]⟩, ⟨"b", Dtype.number, [Cell.val (Value.num 7), Cell.missing]⟩]
        "fill_zero").getD 0 defCol).cells.getD 0 Cell.missing
      = (if (([⟨"a", Dtype.text, [Cell.missing]⟩, ⟨"b", Dtype.number, [Cell.val (Value.num 7), Cell.missing]⟩] : Table).getD 0 defCol).cells.getD 0 Cell.missing = Cell.missing
         then Cell.val (Value.num 0)
         else (([⟨"a", Dtype.text, [Cell.missing]⟩, ⟨"b", Dtype.number, [Cell.val (Value.num 7), Cell.missing]⟩] : Table).getD 0 defCol).cells.getD 0 Cell.missing) :=
  ⟨(fill_zero_no_missing
      [⟨"a", Dtype.text, [Cell.missing]⟩, ⟨"b", Dtype.number, [Cell.val (Value.num 7), Cell.missing]⟩]
      0 0 (by decide) (by decide)).2.2.1,
   (fill_zero_no_missing
      [⟨"a", Dtype.text, [Cell.missing]⟩, ⟨"b", Dtype.number, [Cell.val (Value.num 7), Cell.missing]⟩]
      0 0 (by decide) (by decide)).2.2.2⟩

/-- Claim C10: under fill_mean or fill_median, a numeric column whose
cells are all missing stays all missing: the statistic of an all-missing
column is itself the missing marker, so nothing is substituted. -/
theorem fill_stat_all_missing (df : Table) (j : Nat) (s : String)
    (hs : s = "fill_mean" ∨ s = "fill_median")
    (hj : j < df.length)
    (hall : ∀ x ∈ (df.getD j defCol).cells, x = Cell.missing) :
    ∀ x ∈ ((handle_missing_values df s).getD j defCol).cells, x = Cell.missing := by
  have hnv : (df.getD j defCol).cells.filterMap numVal = [] := by
    rw [List.filterMap_eq_nil_iff]
    intro a ha
    rw [hall a ha]
    rfl
  have hfill : ∀ stat : Cell,
      (∀ x ∈ (df.getD j defCol).cells, x = Cell.missing) →
      ∀ x ∈ fillCells (df.getD j defCol).cells stat, stat = Cell.missing → x = Cell.missing := by
    intro stat h x hx hstat
    unfold fillCells at hx
    obtain ⟨y, hy, rfl⟩ := List.mem_map.mp hx
    rw [h y hy, hstat]
  rcases hs with hs | hs <;> subst hs
  · have hm : handle_missing_values df "fill_mean"
        = df.map (fun c =>
            if c.dtype = Dtype.number then ⟨c.name, c.dtype, fillCells c.cells (colMeanCell c.cells)⟩
            else c) := by
      unfold handle_missing_values
      rw [if_neg (by decide), if_pos rfl]
    rw [hm, getD_map_lt _ hj defCol defCol]
    by_cases hd : (df.getD j defCol).dtype = Dtype.number
    · rw [if_pos hd]
      intro x hx
      refine hfill _ hall x hx ?_
      unfold colMeanCell
      rw [hnv]
      rfl
    · rw [if_neg hd]
      exact hall
  · have hm : handle_missing_values df "fill_median"
        = df.map (fun c =>
            if c.dtype = Dtype.number then ⟨c.name, c.dtype, fillCells c.cells (colMedianCell c.cells)⟩
            else c) := by
      unfold handle_missing_values
      rw [if_neg (by decide), if_neg (by decide), if_pos rfl]
    rw [hm, getD_map_lt _ hj defCol defCol]
    by_cases hd : (df.getD j defCol).dtype = Dtype.number
    · rw [if_pos hd]
      intro x hx
      refine hfill _ hall x hx ?_
      unfold colMedianCell
      rw [hnv]
      rfl
    · rw [if_neg hd]
      exact hall

/-- Witness for claim C10 at a concrete one-column all-missing numeric
table under fill_mean: the first cell of the handled column is still
missing. -/
theorem fill_stat_all_missing_witness :
    ((handle_missing_values [⟨"v", Dtype.number, [Cell.missing, Cell.missing]⟩]
        "fill_mean").getD 0 defCol).cells.getD 0 Cell.missing = Cell.missing :=
  fill_stat_all_missing [⟨"v", Dtype.number, [Cell.missing, Cell.missing]⟩] 0 "fill_mean"
    (Or.inl rfl) (by decide) (by decide)
    (((handle_missing_values [⟨"v", Dtype.number, [Cell.missing, Cell.missing]⟩]
        "fill_mean").getD 0 defCol).cells.getD 0 Cell.missing)
    (by decide)

/-- Claim C6: the drop strategy returns a table with strictly no missing
cell, and each of its rows is, cell for cell, a row of the input. -/
theorem drop_no_missing_rows_subset (df : Table) :
    (∀ c ∈ handle_missing_values df "drop", ∀ x ∈ c.cells, x ≠ Cell.missing)
    ∧ ∀ j, j < nrows (handle_missing_values df "drop") →
        ∃ i, i < nrows df ∧ rowAt (handle_missing_values df "drop") j = rowAt df i := by
  have hd : handle_missing_values df "drop" = dropna df := by
    unfold handle_missing_values
    rw [if_pos rfl]
  rw [hd]
  constructor
  · intro c hc x hx
    unfold dropna at hc
    obtain ⟨c0, hc0, rfl⟩ := List.mem_map.mp hc
    obtain ⟨i, hi, rfl⟩ := List.mem_map.mp hx
    have hmem := List.mem_filter.mp hi
    have hrow : rowHasMissing df i = false := by
      have := hmem.2
      simpa using this
    unfold rowHasMissing at hrow
    rw [List.any_eq_false] at hrow
    have hnm := hrow c0 hc0
    cases h : c0.cells.getD i Cell.missing with
    | missing => rw [h] at hnm; simp [isMissing] at hnm
    | val v => exact fun hcon => Cell.noConfusion hcon
  · intro j hj
    have hjk : j < (keptIdx df).length := by
      by_cases hdf : df = []
      · subst hdf
        simp [dropna, nrows] at hj
      · obtain ⟨c0, rest, rfl⟩ := List.exists_cons_of_ne_nil hdf
        unfold dropna nrows at hj
        rw [List.map_cons] at hj
        simpa using hj
    refine ⟨(keptIdx df).getD j 0, ?_, ?_⟩
    · have hmem : (keptIdx df).getD j 0 ∈ keptIdx df := by
        rw [List.getD_eq_getElem _ _ hjk]
        exact List.getElem_mem _
      exact List.mem_range.mp (List.mem_filter.mp hmem).1
    · unfold rowAt dropna
      rw [List.map_map]
      apply List.map_congr_left
      intro c _
      simp only [Function.comp_apply]
      exact getD_map_lt _ hjk Cell.missing 0

/-- Witness for claim C6 at a concrete table with one clean and one
missing-bearing row. -/
theorem drop_no_missing_rows_subset_witness :
    (∀ c ∈ handle_missing_values
        [⟨"a", Dtype.number, [Cell.val (Value.num 1), Cell.missing]⟩,
         ⟨"b", Dtype.text, [Cell.val (Value.str "x"), Cell.val (Value.str "y")]⟩] "drop",
      ∀ x ∈ c.cells, x ≠ Cell.missing)
    ∧ ∀ j, j < nrows (handle_missing_values
        [⟨"a", Dtype.number, [Cell.val (Value.num 1), Cell.missing]⟩,
         ⟨"b", Dtype.text, [Cell.val (Value.str "x"), Cell.val (Value.str "y")]⟩] "drop") →
        ∃ i, i < nrows ([⟨"a", Dtype.number, [Cell.val (Value.num 1), Cell.missing]⟩,
         ⟨"b", Dtype.text, [Cell.val (Value.str "x"), Cell.val (Value.str "y")]⟩] : Table)
          ∧ rowAt (handle_missing_values
              [⟨"a", Dtype.number, [Cell.val (Value.num 1), Cell.missing]⟩,
               ⟨"b", Dtype.text, [Cell.val (Value.str "x"), Cell.val (Value.str "y")]⟩] "drop") j
            = rowAt ([⟨"a", Dtype.number, [Cell.val (Value.num 1), Cell.missing]⟩,
               ⟨"b", Dtype.text, [Cell.val (Value.str "x"), Cell.val (Value.str "y")]⟩] : Table) i :=
  drop_no_missing_rows_subset
    [⟨"a", Dtype.number, [Cell.val (Value.num 1), Cell.missing]⟩,
     ⟨"b", Dtype.text, [Cell.val (Value.str "x"), Cell.val (Value.str "y")]⟩]

/-! Claim C8 about load_datasets. -/

/-- Claim C8: when any one of the five required files is absent from the
base directory, load_datasets returns the defined no-result value none:
the FileNotFoundError of the failing read is caught by the single try
block, so no partial mapping is ever produced. -/
theorem load_missing_file_none (fs : String → Option Table) (bp : String)
    (h : fs (bp ++ "olist_orders_dataset.csv") = none
       ∨ fs (bp ++ "olist_order_items_dataset.csv") = none
       ∨ fs (bp ++ "olist_products_dataset.csv") = none
       ∨ fs (bp ++ "olist_customers_dataset.csv") = none
       ∨ fs (bp ++ "olist_sellers_dataset.csv") = none) :
    load_datasets fs bp = none := by
  unfold load_datasets
  rcases h with h | h | h | h | h <;>
    rw [h] <;>
    (cases fs (bp ++ "olist_orders_dataset.csv") <;>
     cases fs (bp ++ "olist_order_items_dataset.csv") <;>
     cases fs (bp ++ "olist_products_dataset.csv") <;>
     cases fs (bp ++ "olist_customers_dataset.csv") <;>
     cases fs (bp ++ "olist_sellers_dataset.csv") <;>
     rfl)

/-- Witness for claim C8 on the empty filesystem. -/
theorem load_missing_file_none_witness :
    load_datasets (fun _ => none) "../data/raw/" = none :=
  load_missing_file_none (fun _ => none) "../data/raw/" (Or.inl rfl)

/-! Claims C1, C2 and C4 about calculate_delivery_time. -/

/-- Name-map characterization of coerceDatetimeCol: coercing a column
in place never renames anything. -/
theorem coerce_names (df : Table) (col : String) :
    (coerceDatetimeCol df col).map Column.name = df.map Column.name := by
  unfold coerceDatetimeCol
  rw [List.map_map]
  apply List.map_congr_left
  intro c _
  by_cases hc : c.name = col <;> by_cases hd : c.dtype = Dtype.datetime <;>
    simp [hc, hd, convertCol]

/-- Counterexample input for claim C2: the purchase-timestamp column is
present as raw text, and the delivered-date column is absent. -/
def ordersTextOnly : Table :=
  [⟨"order_purchase_timestamp", Dtype.text, [Cell.val (Value.str "2022-01-05")]⟩]

/-- Counterexample to claim C2 as stated: on a table that lacks the
delivered-date column but holds the purchase timestamp as text, the
calculator reports the error yet does not return the table unchanged:
the purchase column has already been coerced to datetime. -/
theorem calc_missing_col_changed_cex :
    hasCol ordersTextOnly "order_delivered_customer_date" = false
    ∧ calculate_delivery_time ordersTextOnly ≠ ordersTextOnly := by decide

/-- Claim C2 as amended: when one of the three required date columns is
absent, the calculator adds no column (the output column names are
exactly the input column names, in order); the table is returned fully
unchanged when the purchase-timestamp column (the first one checked) is
the absent one, but date columns checked before the first absent one may
already have been coerced to datetime. -/
theorem calc_missing_col_names_unchanged (orders : Table)
    (h : hasCol orders "order_purchase_timestamp" = false
       ∨ hasCol orders "order_delivered_customer_date" = false
       ∨ hasCol orders "order_estimated_delivery_date" = false) :
    (calculate_delivery_time orders).map Column.name = orders.map Column.name
    ∧ (hasCol orders "order_purchase_timestamp" = false →
        calculate_delivery_time orders = orders) := by
  unfold calculate_delivery_time
  rcases h with h | h | h
  · rw [if_neg (by rw [h]; decide)]
    exact ⟨rfl, fun _ => rfl⟩
  · by_cases h1 : hasCol orders "order_purchase_timestamp" = true
    · rw [if_pos h1, if_neg (by rw [hasCol_coerce, h]; decide)]
      refine ⟨coerce_names _ _, fun hc => ?_⟩
      rw [h1] at hc
      exact Bool.noConfusion hc
    · rw [if_neg h1]
      exact ⟨rfl, fun _ => rfl⟩
  · by_cases h1 : hasCol orders "order_purchase_timestamp" = true
    · rw [if_pos h1]
      by_cases h2 : hasCol orders "order_delivered_customer_date" = true
      · rw [if_pos (by rw [hasCol_coerce]; exact h2),
          if_neg (by rw [hasCol_coerce, hasCol_coerce, h]; decide)]
        refine ⟨?_, fun hc => ?_⟩
        · rw [coerce_names, coerce_names]
        · rw [h1] at hc
          exact Bool.noConfusion hc
      · rw [if_neg (by rw [hasCol_coerce]; exact h2)]
        refine ⟨coerce_names _ _, fun hc => ?_⟩
        rw [h1] at hc
        exact Bool.noConfusion hc
    · rw [if_neg h1]
      exact ⟨rfl, fun _ => rfl⟩

/-- Witness for the amended claim C2 at a concrete one-column table. -/
theorem calc_missing_col_names_unchanged_witness :
    (calculate_delivery_time [⟨"order_id", Dtype.text, [Cell.val (Value.str "o1")]⟩]).map
        Column.name
      = ([⟨"order_id", Dtype.text, [Cell.val (Value.str "o1")]⟩] : Table).map Column.name
    ∧ calculate_delivery_time [⟨"order_id", Dtype.text, [Cell.val (Value.str "o1")]⟩]
      = [⟨"order_id", Dtype.text, [Cell.val (Value.str "o1")]⟩] :=
  ⟨(calc_missing_col_names_unchanged [⟨"order_id", Dtype.text, [Cell.val (Value.str "o1")]⟩]
      (Or.inl (by decide))).1,
   (calc_missing_col_names_unchanged [⟨"order_id", Dtype.text, [Cell.val (Value.str "o1")]⟩]
      (Or.inl (by decide))).2 (by decide)⟩

/-- When the three required date columns are present, the calculator
reduces to the derived-column block applied to the coerced table. -/
theorem calc_reduce (orders : Table)
    (h1 : hasCol orders "order_purchase_timestamp" = true)
    (h2 : hasCol orders "order_delivered_customer_date" = true)
    (h3 : hasCol orders "order_estimated_delivery_date" = true) :
    calculate_delivery_time orders
      = addDeliveryCols
          (coerceDatetimeCol
            (coerceDatetimeCol (coerceDatetimeCol orders "order_purchase_timestamp")
              "order_delivered_customer_date")
            "order_estimated_delivery_date") := by
  unfold calculate_delivery_time
  rw [if_pos h1, if_pos (by rw [hasCol_coerce]; exact h2),
    if_pos (by rw [hasCol_coerce, hasCol_coerce]; exact h3)]

/-- addDeliveryCols leaves every column other than the four derived
ones untouched. -/
theorem addDelivery_keep (df : Table) (m : String)
    (hm1 : m ≠ "delivery_time_days") (hm2 : m ≠ "estimated_delivery_time_days")
    (hm3 : m ≠ "delivery_time_difference") (hm4 : m ≠ "delivered_on_time") :
    colCells (addDeliveryCols df) m = colCells df m := by
  simp only [addDeliveryCols]
  rw [colCells_setCol_ne _ _ hm4, colCells_setCol_ne _ _ hm3,
    colCells_setCol_ne _ _ hm2, colCells_setCol_ne _ _ hm1]

/-- Cell content of the delivery_time_days column. -/
theorem addDelivery_days (df : Table) :
    colCells (addDeliveryCols df) "delivery_time_days"
      = List.zipWith subDays (colCells df "order_delivered_customer_date")
          (colCells df "order_purchase_timestamp") := by
  simp only [addDeliveryCols]
  rw [colCells_setCol_ne _ _ (by decide), colCells_setCol_ne _ _ (by decide),
    colCells_setCol_ne _ _ (by decide), colCells_setCol_self]

/-- Cell content of the estimated_delivery_time_days column. -/
theorem addDelivery_est (df : Table) :
    colCells (addDeliveryCols df) "estimated_delivery_time_days"
      = List.zipWith subDays (colCells df "order_estimated_delivery_date")
          (colCells df "order_purchase_timestamp") := by
  simp only [addDeliveryCols]
  rw [colCells_setCol_ne _ _ (by decide), colCells_setCol_ne _ _ (by decide),
    colCells_setCol_self]

/-- Cell content of the delivery_time_difference column. -/
theorem addDelivery_diff (df : Table) :
    colCells (addDeliveryCols df) "delivery_time_difference"
      = List.zipWith subNum
          (List.zipWith subDays (colCells df "order_delivered_customer_date")
            (colCells df "order_purchase_timestamp"))
          (List.zipWith subDays (colCells df "order_estimated_delivery_date")
            (colCells df "order_purchase_timestamp")) := by
  simp only [addDeliveryCols]
  rw [colCells_setCol_ne _ _ (by decide), colCells_setCol_self]
  rw [colCells_setCol_self]
  rw [colCells_setCol_ne _ _ (by decide), colCells_setCol_self]

/-- Cell content of the delivered_on_time column. -/
theorem addDelivery_ontime (df : Table) :
    colCells (addDeliveryCols df) "delivered_on_time"
      = (List.zipWith subNum
          (List.zipWith subDays (colCells df "order_delivered_customer_date")
            (colCells df "order_purchase_timestamp"))
          (List.zipWith subDays (colCells df "order_estimated_delivery_date")
            (colCells df "order_purchase_timestamp"))).map leZero := by
  simp only [addDeliveryCols]
  rw [colCells_setCol_self]
  rw [colCells_setCol_self]
  rw [colCells_setCol_self]
  rw [colCells_setCol_ne _ _ (by decide), colCells_setCol_self]

/-- Claim C1: in any run of the calculator where the three date columns
exist, every row whose purchase, delivered and estimated timestamps are
all present gets a numeric delivery_time_difference, and that difference
is at most zero exactly when delivered_on_time is true. -/
theorem delivery_on_time_iff (orders : Table) (i : Nat) (p d e : Int)
    (h1 : hasCol orders "order_purchase_timestamp" = true)
    (h2 : hasCol orders "order_delivered_customer_date" = true)
    (h3 : hasCol orders "order_estimated_delivery_date" = true)
    (hp : (colCells (calculate_delivery_time orders) "order_purchase_timestamp").getD i
        Cell.missing = Cell.val (Value.dt p))
    (hd : (colCells (calculate_delivery_time orders) "order_delivered_customer_date").getD i
        Cell.missing = Cell.val (Value.dt d))
    (he : (colCells (calculate_delivery_time orders) "order_estimated_delivery_date").getD i
        Cell.missing = Cell.val (Value.dt e)) :
    ∃ q : Rat,
      (colCells (calculate_delivery_time orders) "delivery_time_difference").getD i
          Cell.missing = Cell.val (Value.num q)
      ∧ (q ≤ 0 ↔
          (colCells (calculate_delivery_time orders) "delivered_on_time").getD i
              Cell.missing = Cell.val (Value.bool true)) := by
  have hcalc := calc_reduce orders h1 h2 h3
  rw [hcalc] at hp hd he ⊢
  rw [addDelivery_keep _ _ (by decide) (by decide) (by decide) (by decide)] at hp hd he
  set df3 := coerceDatetimeCol
    (coerceDatetimeCol (coerceDatetimeCol orders "order_purchase_timestamp")
      "order_delivered_customer_date") "order_estimated_delivery_date" with hdf3
  have hip : i < (colCells df3 "order_purchase_timestamp").length := getD_val_lt hp
  have hid : i < (colCells df3 "order_delivered_customer_date").length := getD_val_lt hd
  have hie : i < (colCells df3 "order_estimated_delivery_date").length := getD_val_lt he
  have hzd : i < (List.zipWith subDays (colCells df3 "order_delivered_customer_date")
      (colCells df3 "order_purchase_timestamp")).length := by
    rw [List.length_zipWith]; omega
  have hze : i < (List.zipWith subDays (colCells df3 "order_estimated_delivery_date")
      (colCells df3 "order_purchase_timestamp")).length := by
    rw [List.length_zipWith]; omega
  have hzn : i < (List.zipWith subNum
      (List.zipWith subDays (colCells df3 "order_delivered_customer_date")
        (colCells df3 "order_purchase_timestamp"))
      (List.zipWith subDays (colCells df3 "order_estimated_delivery_date")
        (colCells df3 "order_purchase_timestamp"))).length := by
    rw [List.length_zipWith]; omega
  have ed : (List.zipWith subDays (colCells df3 "order_delivered_customer_date")
        (colCells df3 "order_purchase_timestamp")).getD i Cell.missing
      = Cell.val (Value.num (((d - p : Int) : Rat) / (nsPerDay : Rat))) := by
    rw [getD_zipWith_lt subDays hid hip Cell.missing Cell.missing Cell.missing, hd, hp]
    rfl
  have ee : (List.zipWith subDays (colCells df3 "order_estimated_delivery_date")
        (colCells df3 "order_purchase_timestamp")).getD i Cell.missing
      = Cell.val (Value.num (((e - p : Int) : Rat) / (nsPerDay : Rat))) := by
    rw [getD_zipWith_lt subDays hie hip Cell.missing Cell.missing Cell.missing, he, hp]
    rfl
  have ediff : (colCells (addDeliveryCols df3) "delivery_time_difference").getD i Cell.missing
      = Cell.val (Value.num (((d - p : Int) : Rat) / (nsPerDay : Rat)
          - ((e - p : Int) : Rat) / (nsPerDay : Rat))) := by
    rw [addDelivery_diff, getD_zipWith_lt subNum hzd hze Cell.missing Cell.missing Cell.missing,
      ed, ee]
    rfl
  have eon : (colCells (addDeliveryCols df3) "delivered_on_time").getD i Cell.missing
      = Cell.val (Value.bool (decide ((((d - p : Int) : Rat) / (nsPerDay : Rat)
          - ((e - p : Int) : Rat) / (nsPerDay : Rat)) ≤ 0))) := by
    rw [addDelivery_ontime, getD_map_lt leZero hzn Cell.missing Cell.missing,
      getD_zipWith_lt subNum hzd hze Cell.missing Cell.missing Cell.missing, ed, ee]
    rfl
  refine ⟨_, ediff, ?_⟩
  rw [eon]
  simp only [Cell.val.injEq, Value.bool.injEq, decide_eq_true_eq]

/-- Witness input for claim C1: one row, delivered after one day,
estimated after two. -/
def ordersOnTime : Table :=
  [⟨"order_purchase_timestamp", Dtype.datetime, [Cell.val (Value.dt 0)]⟩,
   ⟨"order_delivered_customer_date", Dtype.datetime, [Cell.val (Value.dt 86400000000000)]⟩,
   ⟨"order_estimated_delivery_date", Dtype.datetime, [Cell.val (Value.dt 172800000000000)]⟩]

/-- Witness for claim C1 at the concrete one-row orders table. -/
theorem delivery_on_time_iff_witness :
    ∃ q : Rat,
      (colCells (calculate_delivery_time ordersOnTime) "delivery_time_difference").getD 0
          Cell.missing = Cell.val (Value.num q)
      ∧ (q ≤ 0 ↔
          (colCells (calculate_delivery_time ordersOnTime) "delivered_on_time").getD 0
              Cell.missing = Cell.val (Value.bool true)) :=
  delivery_on_time_iff ordersOnTime 0 0 86400000000000 172800000000000
    (by decide) (by decide) (by decide) (by decide) (by decide) (by decide)

/-- subDays is missing whenever its first operand is. -/
theorem subDays_missing_left (y : Cell) : subDays Cell.missing y = Cell.missing := by
  cases y with
  | missing => rfl
  | val v => cases v <;> rfl

/-- subDays is missing whenever its second operand is. -/
theorem subDays_missing_right (x : Cell) : subDays x Cell.missing = Cell.missing := by
  cases x with
  | missing => rfl
  | val v => cases v <;> rfl

/-- subNum is missing whenever its first operand is. -/
theorem subNum_missing_left (y : Cell) : subNum Cell.missing y = Cell.missing := by
  cases y with
  | missing => rfl
  | val v => cases v <;> rfl

/-- subNum is missing whenever its second operand is. -/
theorem subNum_missing_right (x : Cell) : subNum x Cell.missing = Cell.missing := by
  cases x with
  | missing => rfl
  | val v => cases v <;> rfl

/-- Counterexample input for claim C4: the purchase timestamp of the
only row is missing, the other two timestamps are present. -/
def ordersMissingPurchase : Table :=
  [⟨"order_purchase_timestamp", Dtype.datetime, [Cell.missing]⟩,
   ⟨"order_delivered_customer_date", Dtype.datetime, [Cell.val (Value.dt 0)]⟩,
   ⟨"order_estimated_delivery_date", Dtype.datetime, [Cell.val (Value.dt 86400000000000)]⟩]

/-- Counterexample to claim C4 as stated: with the purchase timestamp
missing, delivered_on_time, which depends on it, is not the missing
marker: comparing a missing difference with zero yields false. -/
theorem delivery_missing_ontime_cex :
    (colCells (calculate_delivery_time ordersMissingPurchase)
        "order_purchase_timestamp").getD 0 Cell.missing = Cell.missing
    ∧ (colCells (calculate_delivery_time ordersMissingPurchase)
        "delivered_on_time").getD 0 Cell.missing ≠ Cell.missing
    ∧ (colCells (calculate_delivery_time ordersMissingPurchase)
        "delivered_on_time").getD 0 Cell.missing = Cell.val (Value.bool false) := by decide

/-- Claim C4 as amended: in any run of the calculator where the three
date columns exist, a row with a missing timestamp yields missing
markers in the three derived numeric columns that depend on it, while
delivered_on_time becomes false (not missing); no error is raised (the
calculator is a total function). -/
theorem delivery_missing_propagates (orders : Table) (i : Nat)
    (h1 : hasCol orders "order_purchase_timestamp" = true)
    (h2 : hasCol orders "order_delivered_customer_date" = true)
    (h3 : hasCol orders "order_estimated_delivery_date" = true)
    (hip : i < (colCells (calculate_delivery_time orders) "order_purchase_timestamp").length)
    (hid : i < (colCells (calculate_delivery_time orders) "order_delivered_customer_date").length)
    (hie : i < (colCells (calculate_delivery_time orders) "order_estimated_delivery_date").length)
    (hone : (colCells (calculate_delivery_time orders) "order_purchase_timestamp").getD i
          Cell.missing = Cell.missing
        ∨ (colCells (calculate_delivery_time orders) "order_delivered_customer_date").getD i
          Cell.missing = Cell.missing
        ∨ (colCells (calculate_delivery_time orders) "order_estimated_delivery_date").getD i
          Cell.missing = Cell.missing) :
    ((colCells (calculate_delivery_time orders) "order_purchase_timestamp").getD i
          Cell.missing = Cell.missing
        ∨ (colCells (calculate_delivery_time orders) "order_delivered_customer_date").getD i
          Cell.missing = Cell.missing →
      (colCells (calculate_delivery_time orders) "delivery_time_days").getD i
        Cell.missing = Cell.missing)
    ∧ ((colCells (calculate_delivery_time orders) "order_purchase_timestamp").getD i
          Cell.missing = Cell.missing
        ∨ (colCells (calculate_delivery_time orders) "order_estimated_delivery_date").getD i
          Cell.missing = Cell.missing →
      (colCells (calculate_delivery_time orders) "estimated_delivery_time_days").getD i
        Cell.missing = Cell.missing)
    ∧ (colCells (calculate_delivery_time orders) "delivery_time_difference").getD i
        Cell.missing = Cell.missing
    ∧ (colCells (calculate_delivery_time orders) "delivered_on_time").getD i
        Cell.missing = Cell.val (Value.bool false) := by
  have hcalc := calc_reduce orders h1 h2 h3
  rw [hcalc] at hip hid hie hone ⊢
  rw [addDelivery_keep _ "order_purchase_timestamp"
    (by decide) (by decide) (by decide) (by decide)] at hip hone ⊢
  rw [addDelivery_keep _ "order_delivered_customer_date"
    (by decide) (by decide) (by decide) (by decide)] at hid hone ⊢
  rw [addDelivery_keep _ "order_estimated_delivery_date"
    (by decide) (by decide) (by decide) (by decide)] at hie hone ⊢
  set df3 := coerceDatetimeCol
    (coerceDatetimeCol (coerceDatetimeCol orders "order_purchase_timestamp")
      "order_delivered_customer_date") "order_estimated_delivery_date" with hdf3
  have hzd : i < (List.zipWith subDays (colCells df3 "order_delivered_customer_date")
      (colCells df3 "order_purchase_timestamp")).length := by
    rw [List.length_zipWith]; omega
  have hze : i < (List.zipWith subDays (colCells df3 "order_estimated_delivery_date")
      (colCells df3 "order_purchase_timestamp")).length := by
    rw [List.length_zipWith]; omega
  have hzn : i < (List.zipWith subNum
      (List.zipWith subDays (colCells df3 "order_delivered_customer_date")
        (colCells df3 "order_purchase_timestamp"))
      (List.zipWith subDays (colCells df3 "order_estimated_delivery_date")
        (colCells df3 "order_purchase_timestamp"))).length := by
    rw [List.length_zipWith]; omega
  have hdm : (List.zipWith subNum
      (List.zipWith subDays (colCells df3 "order_delivered_customer_date")
        (colCells df3 "order_purchase_timestamp"))
      (List.zipWith subDays (colCells df3 "order_estimated_delivery_date")
        (colCells df3 "order_purchase_timestamp"))).getD i Cell.missing = Cell.missing := by
    rw [getD_zipWith_lt subNum hzd hze Cell.missing Cell.missing Cell.missing,
      getD_zipWith_lt subDays hid hip Cell.missing Cell.missing Cell.missing,
      getD_zipWith_lt subDays hie hip Cell.missing Cell.missing Cell.missing]
    rcases hone with h | h | h
    · rw [h, subDays_missing_right, subDays_missing_right, subNum_missing_left]
    · rw [h, subDays_missing_left, subNum_missing_left]
    · rw [h, subDays_missing_left, subNum_missing_right]
  refine ⟨?_, ?_, ?_, ?_⟩
  · intro h
    rw [addDelivery_days, getD_zipWith_lt subDays hid hip Cell.missing Cell.missing Cell.missing]
    rcases h with h | h
    · rw [h, subDays_missing_right]
    · rw [h, subDays_missing_left]
  · intro h
    rw [addDelivery_est, getD_zipWith_lt subDays hie hip Cell.missing Cell.missing Cell.missing]
    rcases h with h | h
    · rw [h, subDays_missing_right]
    · rw [h, subDays_missing_left]
  · rw [addDelivery_diff]
    exact hdm
  · rw [addDelivery_ontime, getD_map_lt leZero hzn Cell.missing Cell.missing, hdm]
    rfl

/-- Witness for the amended claim C4 at the concrete
missing-purchase-timestamp table. -/
theorem delivery_missing_propagates_witness :
    ((colCells (calculate_delivery_time ordersMissingPurchase)
          "order_purchase_timestamp").getD 0 Cell.missing = Cell.missing
        ∨ (colCells (calculate_delivery_time ordersMissingPurchase)
          "order_delivered_customer_date").getD 0 Cell.missing = Cell.missing →
      (colCells (calculate_delivery_time ordersMissingPurchase) "delivery_time_days").getD 0
        Cell.missing = Cell.missing)
    ∧ ((colCells (calculate_delivery_time ordersMissingPurchase)
          "order_purchase_timestamp").getD 0 Cell.missing = Cell.missing
        ∨ (colCells (calculate_delivery_time ordersMissingPurchase)
          "order_estimated_delivery_date").getD 0 Cell.missing = Cell.missing →
      (colCells (calculate_delivery_time ordersMissingPurchase)
          "estimated_delivery_time_days").getD 0 Cell.missing = Cell.missing)
    ∧ (colCells (calculate_delivery_time ordersMissingPurchase)
        "delivery_time_difference").getD 0 Cell.missing = Cell.missing
    ∧ (colCells (calculate_delivery_time ordersMissingPurchase)
        "delivered_on_time").getD 0 Cell.missing = Cell.val (Value.bool false) :=
  delivery_missing_propagates ordersMissingPurchase 0
    (by decide) (by decide) (by decide) (by decide) (by decide) (by decide)
    (Or.inl (by decide))

/-! Claim C3 about merge_order_data. -/

/-- With pairwise-distinct right keys, at most one right row matches a
given key cell. -/
theorem matchIndices_le_one (rk : List Cell) (k : Cell) (h : rk.Nodup) :
    (matchIndices rk k).length ≤ 1 := by
  by_contra hlt
  push_neg at hlt
  have hnd : (matchIndices rk k).Nodup :=
    List.Nodup.filter _ (List.nodup_range _)
  cases ms : matchIndices rk k with
  | nil => rw [ms] at hlt; simp at hlt
  | cons a tail =>
    cases tail with
    | nil => rw [ms] at hlt; simp at hlt
    | cons b t2 =>
      rw [ms] at hnd
      have hab : a ≠ b := by
        intro hcon
        exact (List.nodup_cons.mp hnd).1 (hcon ▸ List.mem_cons_self b t2)
      have ha : a ∈ matchIndices rk k := by rw [ms]; exact List.mem_cons_self _ _
      have hb : b ∈ matchIndices rk k := by
        rw [ms]; exact List.mem_cons.mpr (Or.inr (List.mem_cons_self _ _))
      have ha2 := List.mem_filter.mp ha
      have hb2 := List.mem_filter.mp hb
      have haL := List.mem_range.mp ha2.1
      have hbL := List.mem_range.mp hb2.1
      have hka : rk.getD a Cell.missing = k := by simpa using ha2.2
      have hkb : rk.getD b Cell.missing = k := by simpa using hb2.2
      rw [List.getD_eq_getElem _ _ haL] at hka
      rw [List.getD_eq_getElem _ _ hbL] at hkb
      exact hab ((List.Nodup.getElem_inj_iff h).mp (by rw [hka, hkb]))

/-- Length of a flatMap whose pieces are all singletons. -/
theorem length_flatMap_singleton {α β : Type} (l : List α) (f : α → List β)
    (h : ∀ a ∈ l, (f a).length = 1) : (l.flatMap f).length = l.length := by
  induction l with
  | nil => rfl
  | cons a t ih =>
    rw [List.flatMap_cons, List.length_append, h a (List.mem_cons_self _ _),
      ih (fun x hx => h x (List.mem_cons.mpr (Or.inr hx))), List.length_cons]
    omega

/-- A left merge against pairwise-distinct right keys has exactly one
output row per left row. -/
theorem leftPairs_length (lk rk : List Cell) (h : rk.Nodup) :
    (leftPairs lk rk).length = lk.length := by
  unfold leftPairs
  rw [length_flatMap_singleton]
  · exact List.length_range _
  · intro i _
    by_cases hempty : (matchIndices rk (lk.getD i Cell.missing)).isEmpty = true
    · simp only [hempty, if_pos]
      rfl
    · simp only [hempty]
      rw [if_neg (by simp [hempty]), List.length_map]
      have hle := matchIndices_le_one rk (lk.getD i Cell.missing) h
      have hne : matchIndices rk (lk.getD i Cell.missing) ≠ [] := by
        intro hcon
        rw [hcon] at hempty
        exact hempty rfl
      have hpos := List.length_pos.mpr hne
      omega

/-- Shape of a successful merge: both key columns exist, and every
output column, hence the row count, has the length of the row-pair
list. -/
theorem pdMerge_shape (l r : Table) (k : String) (b : Bool) (m : Table)
    (hm : pdMerge l r k b = some m) :
    ∃ lc rc, getCol l k = some lc ∧ getCol r k = some rc
      ∧ nrows m = (mergePairs lc rc b).length
      ∧ ∀ c ∈ m, c.cells.length = (mergePairs lc rc b).length := by
  unfold pdMerge at hm
  cases hl : getCol l k with
  | none => rw [hl] at hm; exact absurd hm (by simp)
  | some lc =>
    cases hr : getCol r k with
    | none => rw [hl, hr] at hm; exact absurd hm (by simp)
    | some rc =>
      rw [hl, hr] at hm
      have hm2 := Option.some.inj hm
      refine ⟨lc, rc, rfl, rfl, ?_, ?_⟩
      · cases hlist : l with
        | nil =>
          rw [hlist] at hl
          exact absurd hl (by simp [getCol])
        | cons c0 rest =>
          rw [hlist] at hm2
          rw [← hm2]
          unfold nrows
          rw [List.map_cons, List.cons_append]
          exact List.length_map _ _
      · intro c hc
        rw [← hm2] at hc
        rcases List.mem_append.mp hc with hcl | hcr
        · obtain ⟨c0, _, rfl⟩ := List.mem_map.mp hcl
          exact List.length_map _ _
        · obtain ⟨c0, _, rfl⟩ := List.mem_map.mp hcr
          exact List.length_map _ _

/-- A left merge against a right table with pairwise-distinct key
values preserves the row count of the left table. -/
theorem pdMerge_left_nrows (l r : Table) (k : String) (m : Table)
    (hm : pdMerge l r k false = some m)
    (hwf : ∀ c ∈ l, c.cells.length = nrows l)
    (hnd : (colCells r k).Nodup) :
    nrows m = nrows l := by
  obtain ⟨lc, rc, hl, hr, hn, _⟩ := pdMerge_shape l r k false m hm
  rw [hn]
  have hrc : colCells r k = rc.cells := by
    unfold colCells
    rw [hr]
    rfl
  rw [hrc] at hnd
  show (mergePairs lc rc false).length = nrows l
  unfold mergePairs
  rw [if_neg (by decide), leftPairs_length _ _ hnd]
  exact hwf lc (getCol_mem hl)

/-- Counterexample inputs for claim C3: a one-row orders and
order_items pair, and a products table in which the same product
identifier appears twice. -/
def ordersOneRow : Table := [⟨"order_id", Dtype.text, [Cell.val (Value.str "o1")]⟩]

/-- One order item referencing product p1. -/
def itemsOneRow : Table :=
  [⟨"order_id", Dtype.text, [Cell.val (Value.str "o1")]⟩,
   ⟨"product_id", Dtype.text, [Cell.val (Value.str "p1")]⟩]

/-- A products table with a duplicated product identifier. -/
def productsDup : Table :=
  [⟨"product_id", Dtype.text, [Cell.val (Value.str "p1"), Cell.val (Value.str "p1")]⟩,
   ⟨"weight", Dtype.number, [Cell.val (Value.num 1), Cell.val (Value.num 2)]⟩]

/-- Counterexample to claim C3 as stated: with a duplicated key in the
optional products table, the left join duplicates the matching row, so
the merger returns two rows while the orders and order_items inner join
has one. -/
theorem merge_rowcount_cex :
    (merge_order_data ordersOneRow itemsOneRow (some productsDup) none).map nrows = some 2
    ∧ (pdMerge ordersOneRow itemsOneRow "order_id" true).map nrows = some 1 := by decide

/-- Claim C3 as amended: whenever the merger succeeds and each supplied
optional table has pairwise-distinct key values (one row per product,
one row per customer), the row count of its output equals the row count
of the inner join of orders and order_items on order_id, whichever of
the optional tables are supplied; under that uniqueness the left joins
neither drop nor add rows. -/
theorem merge_rowcount (orders order_items : Table) (op oc : Option Table) (m m0 : Table)
    (hm : merge_order_data orders order_items op oc = some m)
    (h0 : pdMerge orders order_items "order_id" true = some m0)
    (hp : ∀ p, op = some p → (colCells p "product_id").Nodup)
    (hc : ∀ c, oc = some c → (colCells c "customer_id").Nodup) :
    nrows m = nrows m0 := by
  unfold merge_order_data at hm
  rw [h0, Option.some_bind] at hm
  obtain ⟨lc0, rc0, _, _, hn0, hwf0⟩ := pdMerge_shape _ _ _ _ _ h0
  have hwfm0 : ∀ c ∈ m0, c.cells.length = nrows m0 := by
    intro c hcm
    rw [hwf0 c hcm, hn0]
  cases op with
  | none =>
    rw [Option.some_bind] at hm
    cases oc with
    | none =>
      rw [Option.some.inj hm]
    | some c =>
      exact pdMerge_left_nrows _ _ _ _ hm hwfm0 (hc c rfl)
  | some p =>
    have hm2 : (pdMerge m0 p "product_id" false).bind (fun m2 =>
        match oc with
        | some c => pdMerge m2 c "customer_id" false
        | none => some m2) = some m := hm
    cases hq : pdMerge m0 p "product_id" false with
    | none =>
      rw [hq, Option.none_bind] at hm2
      exact absurd hm2 (by simp)
    | some m2 =>
      rw [hq, Option.some_bind] at hm2
      have h2 : nrows m2 = nrows m0 :=
        pdMerge_left_nrows _ _ _ _ hq hwfm0 (hp p rfl)
      obtain ⟨lc2, rc2, _, _, hn2, hwf2⟩ := pdMerge_shape _ _ _ _ _ hq
      have hwfm2 : ∀ c ∈ m2, c.cells.length = nrows m2 := by
        intro c hcm
        rw [hwf2 c hcm, hn2]
      cases oc with
      | none =>
        rw [← Option.some.inj hm2]
        exact h2
      | some c =>
        rw [pdMerge_left_nrows _ _ _ _ hm2 hwfm2 (hc c rfl)]
        exact h2

/-- Witness for the amended claim C3 with both optional tables
supplied, each with distinct keys. -/
theorem merge_rowcount_witness :
    ∃ m m0 : Table,
      merge_order_data
          [⟨"order_id", Dtype.text, [Cell.val (Value.str "o1")]⟩,
           ⟨"customer_id", Dtype.text, [Cell.val (Value.str "c1")]⟩]
          itemsOneRow
          (some [⟨"product_id", Dtype.text, [Cell.val (Value.str "p1")]⟩])
          (some [⟨"customer_id", Dtype.text, [Cell.val (Value.str "c1")]⟩]) = some m
      ∧ pdMerge
          [⟨"order_id", Dtype.text, [Cell.val (Value.str "o1")]⟩,
           ⟨"customer_id", Dtype.text, [Cell.val (Value.str "c1")]⟩]
          itemsOneRow "order_id" true = some m0
      ∧ nrows m = nrows m0 := by
  cases hm : merge_order_data
      [⟨"order_id", Dtype.text, [Cell.val (Value.str "o1")]⟩,
       ⟨"customer_id", Dtype.text, [Cell.val (Value.str "c1")]⟩]
      itemsOneRow
      (some [⟨"product_id", Dtype.text, [Cell.val (Value.str "p1")]⟩])
      (some [⟨"customer_id", Dtype.text, [Cell.val (Value.str "c1")]⟩]) with
  | none => exact absurd hm (by decide)
  | some m =>
    cases h0 : pdMerge
        [⟨"order_id", Dtype.text, [Cell.val (Value.str "o1")]⟩,
         ⟨"customer_id", Dtype.text, [Cell.val (Value.str "c1")]⟩]
        itemsOneRow "order_id" true with
    | none => exact absurd h0 (by decide)
    | some m0 =>
      refine ⟨m, m0, rfl, rfl, ?_⟩
      exact merge_rowcount _ _ _ _ m m0 hm h0
        (fun p hp => by
          rw [← Option.some.inj hp]
          decide)
        (fun c hcc => by
          rw [← Option.some.inj hcc]
          decide)

/-! Claim C7 about extract_date_features. -/

/-- Appending distinct suffixes to the same string yields distinct
strings. -/
theorem string_append_right_inj (a : String) {b c : String} (h : b ≠ c) :
    a ++ b ≠ a ++ c := by
  intro hcon
  apply h
  apply String.ext
  apply @List.append_cancel_left _ a.data
  rw [← String.data_append, ← String.data_append, hcon]

/-- Assigning a fresh column name appends the column at the end. -/
theorem setCol_append {df : Table} {n : String} (d : Dtype) (cs : List Cell)
    (h : hasCol df n = false) : setCol df n d cs = df ++ [⟨n, d, cs⟩] := by
  unfold setCol
  rw [if_neg]
  rw [h]
  exact Bool.noConfusion

/-- Column membership across a single-column append. -/
theorem hasCol_append_single (df : Table) (col : Column) (m : String) :
    hasCol (df ++ [col]) m = (hasCol df m || (col.name == m)) := by
  unfold hasCol getCol
  rw [List.find?_append]
  cases hf : List.find? (fun c => c.name == m) df with
  | some c0 => rfl
  | none =>
    cases hcm : (col.name == m) with
    | true => simp [List.find?_cons, hcm]
    | false => simp [List.find?_cons, hcm]

/-- A fresh name stays fresh across an append of a differently-named
column. -/
theorem hasCol_append_fresh {df : Table} {col : Column} {m : String}
    (h1 : hasCol df m = false) (h2 : col.name ≠ m) : hasCol (df ++ [col]) m = false := by
  rw [hasCol_append_single, h1]
  simp [h2]

/-- Claim C7 as amended: when the named date column exists with
datetime dtype and none of the six derived names is already a column,
extract_date_features appends exactly six new columns (year, month,
day, dayofweek, quarter, is_weekend) after the untouched original
columns, and in every row holding a timestamp the six values are the
calendar fields of that timestamp; is_weekend is 1 exactly when the
day of week is Saturday or Sunday (5 or 6 with Monday = 0) and is 0
otherwise. -/
theorem extract_adds_six (df : Table) (dc : String) (c : Column)
    (hget : getCol df dc = some c) (hdt : c.dtype = Dtype.datetime)
    (hfresh : ∀ suf ∈ featureSuffixes, hasCol df (dc ++ suf) = false) :
    (extract_date_features df dc).length = df.length + 6
    ∧ (extract_date_features df dc).take df.length = df
    ∧ ((extract_date_features df dc).drop df.length).map Column.name
        = featureSuffixes.map (fun s => dc ++ s)
    ∧ ∀ i t, c.cells.getD i Cell.missing = Cell.val (Value.dt t) →
        ((extract_date_features df dc).getD df.length defCol).cells.getD i Cell.missing
            = Cell.val (Value.num (yearOf t))
        ∧ ((extract_date_features df dc).getD (df.length + 1) defCol).cells.getD i Cell.missing
            = Cell.val (Value.num (monthOf t))
        ∧ ((extract_date_features df dc).getD (df.length + 2) defCol).cells.getD i Cell.missing
            = Cell.val (Value.num (dayOf t))
        ∧ ((extract_date_features df dc).getD (df.length + 3) defCol).cells.getD i Cell.missing
            = Cell.val (Value.num (dayOfWeekOf t))
        ∧ ((extract_date_features df dc).getD (df.length + 4) defCol).cells.getD i Cell.missing
            = Cell.val (Value.num (quarterOf t))
        ∧ (((extract_date_features df dc).getD (df.length + 5) defCol).cells.getD i Cell.missing
              = Cell.val (Value.num 1)
            ↔ (dayOfWeekOf t = 5 ∨ dayOfWeekOf t = 6))
        ∧ (((extract_date_features df dc).getD (df.length + 5) defCol).cells.getD i Cell.missing
              = Cell.val (Value.num 1)
          ∨ ((extract_date_features df dc).getD (df.length + 5) defCol).cells.getD i Cell.missing
              = Cell.val (Value.num 0)) := by
  have hy := hfresh "_year" (by simp [featureSuffixes])
  have hmo := hfresh "_month" (by simp [featureSuffixes])
  have hda := hfresh "_day" (by simp [featureSuffixes])
  have hdw := hfresh "_dayofweek" (by simp [featureSuffixes])
  have hqu := hfresh "_quarter" (by simp [featureSuffixes])
  have hwk := hfresh "_is_weekend" (by simp [featureSuffixes])
  have hext : extract_date_features df dc
      = df ++ [⟨dc ++ "_year", Dtype.number, c.cells.map cellYear⟩,
          ⟨dc ++ "_month", Dtype.number, c.cells.map cellMonth⟩,
          ⟨dc ++ "_day", Dtype.number, c.cells.map cellDay⟩,
          ⟨dc ++ "_dayofweek", Dtype.number, c.cells.map cellDayOfWeek⟩,
          ⟨dc ++ "_quarter", Dtype.number, c.cells.map cellQuarter⟩,
          ⟨dc ++ "_is_weekend", Dtype.number, c.cells.map cellIsWeekend⟩] := by
    simp only [extract_date_features, hget, if_pos hdt]
    rw [setCol_append _ _ hy]
    rw [setCol_append _ _ (hasCol_append_fresh hmo (string_append_right_inj dc (by decide)))]
    rw [setCol_append _ _ (hasCol_append_fresh
      (hasCol_append_fresh hda (string_append_right_inj dc (by decide)))
      (string_append_right_inj dc (by decide)))]
    rw [setCol_append _ _ (hasCol_append_fresh (hasCol_append_fresh
      (hasCol_append_fresh hdw (string_append_right_inj dc (by decide)))
      (string_append_right_inj dc (by decide)))
      (string_append_right_inj dc (by decide)))]
    rw [setCol_append _ _ (hasCol_append_fresh (hasCol_append_fresh (hasCol_append_fresh
      (hasCol_append_fresh hqu (string_append_right_inj dc (by decide)))
      (string_append_right_inj dc (by decide)))
      (string_append_right_inj dc (by decide)))
      (string_append_right_inj dc (by decide)))]
    rw [setCol_append _ _ (hasCol_append_fresh (hasCol_append_fresh (hasCol_append_fresh
      (hasCol_append_fresh (hasCol_append_fresh hwk
        (string_append_right_inj dc (by decide)))
      (string_append_right_inj dc (by decide)))
      (string_append_right_inj dc (by decide)))
      (string_append_right_inj dc (by decide)))
      (string_append_right_inj dc (by decide)))]
    simp only [List.append_assoc]
    rfl
  refine ⟨?_, ?_, ?_, ?_⟩
  · rw [hext, List.length_append]
    rfl
  · rw [hext, List.take_left]
  · rw [hext, List.drop_left]
    rfl
  · intro i t hit
    have hi : i < c.cells.length := getD_val_lt hit
    have hk : ∀ k : Nat, k < 6 →
        (extract_date_features df dc).getD (df.length + k) defCol
          = [⟨dc ++ "_year", Dtype.number, c.cells.map cellYear⟩,
              ⟨dc ++ "_month", Dtype.number, c.cells.map cellMonth⟩,
              ⟨dc ++ "_day", Dtype.number, c.cells.map cellDay⟩,
              ⟨dc ++ "_dayofweek", Dtype.number, c.cells.map cellDayOfWeek⟩,
              ⟨dc ++ "_quarter", Dtype.number, c.cells.map cellQuarter⟩,
              ⟨dc ++ "_is_weekend", Dtype.number, c.cells.map cellIsWeekend⟩].getD k defCol := by
      intro k _
      rw [hext, List.getD_append_right _ _ _ _ (Nat.le_add_right _ _),
        Nat.add_sub_cancel_left]
    have hwkcell : ((extract_date_features df dc).getD (df.length + 5) defCol).cells.getD i
        Cell.missing = Cell.val (Value.num
          (if dayOfWeekOf t = 5 ∨ dayOfWeekOf t = 6 then 1 else 0)) := by
      rw [hk 5 (by omega)]
      show (c.cells.map cellIsWeekend).getD i Cell.missing = _
      rw [getD_map_lt cellIsWeekend hi Cell.missing Cell.missing, hit]
      rfl
    refine ⟨?_, ?_, ?_, ?_, ?_, ?_, ?_⟩
    · have h0 : df.length + 0 = df.length := rfl
      rw [← h0, hk 0 (by omega)]
      show (c.cells.map cellYear).getD i Cell.missing = _
      rw [getD_map_lt cellYear hi Cell.missing Cell.missing, hit]
      rfl
    · rw [hk 1 (by omega)]
      show (c.cells.map cellMonth).getD i Cell.missing = _
      rw [getD_map_lt cellMonth hi Cell.missing Cell.missing, hit]
      rfl
    · rw [hk 2 (by omega)]
      show (c.cells.map cellDay).getD i Cell.missing = _
      rw [getD_map_lt cellDay hi Cell.missing Cell.missing, hit]
      rfl
    · rw [hk 3 (by omega)]
      show (c.cells.map cellDayOfWeek).getD i Cell.missing = _
      rw [getD_map_lt cellDayOfWeek hi Cell.missing Cell.missing, hit]
      rfl
    · rw [hk 4 (by omega)]
      show (c.cells.map cellQuarter).getD i Cell.missing = _
      rw [getD_map_lt cellQuarter hi Cell.missing Cell.missing, hit]
      rfl
    · rw [hwkcell]
      by_cases hw : dayOfWeekOf t = 5 ∨ dayOfWeekOf t = 6
      · rw [if_pos hw]
        simp [hw]
      · rw [if_neg hw]
        constructor
        · intro hcon
          simp only [Cell.val.injEq, Value.num.injEq] at hcon
          exact absurd hcon (by norm_num)
        · intro hcon
          exact absurd hcon hw
    · rw [hwkcell]
      by_cases hw : dayOfWeekOf t = 5 ∨ dayOfWeekOf t = 6
      · rw [if_pos hw]
        exact Or.inl rfl
      · rw [if_neg hw]
        exact Or.inr rfl

/-- Counterexample input for claim C7: a valid datetime column together
with a pre-existing column named like the derived year column. -/
def tableWithYearCol : Table :=
  [⟨"d", Dtype.datetime, [Cell.val (Value.dt 0)]⟩,
   ⟨"d_year", Dtype.number, [Cell.val (Value.num 99)]⟩]

/-- Counterexample to claim C7 as stated: on a table that already has a
column named d_year, feature extraction on the valid datetime column d
overwrites that column in place instead of adding it, so only five new
columns appear, not six. -/
theorem extract_adds_six_cex :
    getCol tableWithYearCol "d" = some ⟨"d", Dtype.datetime, [Cell.val (Value.dt 0)]⟩
    ∧ (extract_date_features tableWithYearCol "d").length ≠ tableWithYearCol.length + 6
    ∧ (extract_date_features tableWithYearCol "d").length = tableWithYearCol.length + 5 := by
  decide

/-- Witness input for the amended claim C7: a single datetime column
holding the epoch timestamp. -/
def tableDateOnly : Table := [⟨"d", Dtype.datetime, [Cell.val (Value.dt 0)]⟩]

/-- Witness for the amended claim C7 at the concrete one-column
table. -/
theorem extract_adds_six_witness :
    (extract_date_features tableDateOnly "d").length = tableDateOnly.length + 6
    ∧ ((extract_date_features tableDateOnly "d").getD tableDateOnly.length defCol).cells.getD 0
        Cell.missing = Cell.val (Value.num (yearOf 0))
    ∧ (((extract_date_features tableDateOnly "d").getD (tableDateOnly.length + 5)
          defCol).cells.getD 0 Cell.missing = Cell.val (Value.num 1)
        ↔ (dayOfWeekOf 0 = 5 ∨ dayOfWeekOf 0 = 6)) :=
  ⟨(extract_adds_six tableDateOnly "d" ⟨"d", Dtype.datetime, [Cell.val (Value.dt 0)]⟩
      (by decide) rfl (by decide)).1,
   ((extract_adds_six tableDateOnly "d" ⟨"d", Dtype.datetime, [Cell.val (Value.dt 0)]⟩
      (by decide) rfl (by decide)).2.2.2 0 0 (by decide)).1,
   ((extract_adds_six tableDateOnly "d" ⟨"d", Dtype.datetime, [Cell.val (Value.dt 0)]⟩
      (by decide) rfl (by decide)).2.2.2 0 0 (by decide)).2.2.2.2.2.1⟩

end Sales
